import Mathlib

/-!
Verification of the Q15 saturating axpy kernel
(`src/q15_axpy_challenge/q15_axpy_challenge.c`).

The C file provides three core functions:
* `sat_q15_scalar` (lines 12-16): clamp a 32-bit value into [-32768, 32767];
* `q15_axpy_ref` (lines 18-25): scalar reference kernel,
  `y[i] = sat_q15_scalar((int32)a[i] + (int32)alpha * (int32)b[i])`;
* `q15_axpy_rvv` (lines 33-53): the RISC-V vector kernel.  On builds without
  the vector capability (the preprocessor test at line 36) it delegates to
  `q15_axpy_ref`; on vector builds it runs a strip-mined loop of RVV
  intrinsics, narrowing with `vnclip_wx_i16m2(vacc, 15, vl)`;
* `verify_equal` (lines 56-67): elementwise comparison returning an equality
  flag and the maximum absolute difference.

Machine integers are modelled as unbounded `Int` together with explicit range
predicates; the no-overflow claim (C3) shows the 32-bit accumulator never
wraps, so `Int` arithmetic coincides with the C `int32_t` arithmetic on the
whole 16-bit input domain.  Buffers are `List Int`.  The C functions take a
pointer pair plus one shared element count `n`; we give both the
equal-length functional form (lists zipped, `n` = common length) and a form
with an explicit `n` in which an out-of-bounds access (undefined behavior in
C) is modelled as `none`.
-/

namespace Q15

/-- Range predicate for a value representable in a signed 16-bit integer. -/
def isInt16 (v : Int) : Prop := -32768 ≤ v ∧ v ≤ 32767

instance : DecidablePred isInt16 := fun v => by
  unfold isInt16
  infer_instance

/-- Range predicate for a value representable in a signed 32-bit integer. -/
def isInt32 (v : Int) : Prop := -2147483648 ≤ v ∧ v ≤ 2147483647

instance : DecidablePred isInt32 := fun v => by
  unfold isInt32
  infer_instance

/-- C lines 12-16: saturate a 32-bit value to the Q15 range, clamping (not
wrapping) at both boundaries. -/
def sat_q15_scalar (v : Int) : Int :=
  if v > 32767 then 32767
  else if v < -32768 then -32768
  else v

/-- C line 22: the widened 32-bit accumulator
`(int32)a[i] + (int32)alpha * (int32)b[i]`. -/
def q15_acc (alpha ai bi : Int) : Int := ai + alpha * bi

/-- One element of the scalar kernel (C lines 22-23). -/
def q15_axpy_lane (alpha ai bi : Int) : Int := sat_q15_scalar (q15_acc alpha ai bi)

/-- C lines 18-25, functional form for the equal-length calling contract
(`n` equal to the common buffer length): the loop body maps the lane
computation over corresponding elements of `a` and `b`. -/
def q15_axpy_ref (a b : List Int) (alpha : Int) : List Int :=
  (a.zip b).map fun p => q15_axpy_lane alpha p.1 p.2

/-- Loop of `q15_axpy_ref` with the C signature's explicit element count:
indices `i, i+1, ...` for `rem` further iterations.  Reading past the end of
a buffer is undefined behavior in the C program and is modelled as `none`.
The C code performs no validation of `n` against the buffers. -/
def refN_loop (a b : List Int) (alpha : Int) (i : Nat) : Nat → Option (List Int)
  | 0 => some []
  | rem + 1 => do
      let ai ← a[i]?
      let bi ← b[i]?
      let rest ← refN_loop a b alpha (i + 1) rem
      pure (q15_axpy_lane alpha ai bi :: rest)

/-- C lines 18-25 with the explicit element count `n` of the C signature. -/
def q15_axpy_refN (a b : List Int) (n : Nat) (alpha : Int) : Option (List Int) :=
  refN_loop a b alpha 0 n

/-- RVV fixed-point round-off of `v` by `d` binary digits in the RNU
(round-to-nearest-up) mode, the reset value of the `vxrm` CSR:
`roundoff_signed(v, d) = (v >> d) + v[d-1]`, which for `d > 0` equals the
floor of `(v + 2^(d-1)) / 2^d`. -/
def roundoff_rnu (v : Int) (d : Nat) : Int :=
  if d = 0 then v else (v + 2 ^ (d - 1)).fdiv (2 ^ d)

/-- Semantics of the `vnclip_wx` intrinsic used at C line 48: shift right by
`d` with rounding, then saturate into the signed 16-bit range. -/
def vnclip_wx (v : Int) (d : Nat) : Int := sat_q15_scalar (roundoff_rnu v d)

/-- One lane of the RVV loop body (C lines 43-48): the product of `alpha`
with the (sign-extended) lane of `b`, plus the widened lane of `a`, narrowed
by `vnclip_wx` with shift amount 15 as written at line 48.  (At line 45 the
source passes the 16-bit vector `vb` to the 32-bit intrinsic
`vmul_vx_i32m4`; we read it as the evidently intended widened product.) -/
def rvv_lane (alpha ai bi : Int) : Int := vnclip_wx (q15_acc alpha ai bi) 15

/-- Strip-mined RVV loop (C lines 40-50).  `vsetvl_e16m2(n - i)` is modelled
as `min (n - i) vlmax`, with `vlmax` the platform's maximum vector length in
elements; the loop advances by the group width `vl` chosen each iteration.
The remaining elements drive the recursion; `fuel` bounds the iteration
count (each iteration consumes `vl ≥ 1` elements when `vlmax ≥ 1`, so
`fuel = n` suffices; `vsetvl` never returns 0 for a positive request, the
`vlmax = 0` guard is dead code needed only for totality). -/
def rvv_loop (alpha : Int) (vlmax : Nat) : Nat → List Int → List Int → List Int
  | 0, _, _ => []
  | fuel + 1, a, b =>
    if a.isEmpty then []
    else if vlmax = 0 then []
    else
      let vl := min a.length vlmax
      ((a.take vl).zip (b.take vl)).map (fun p => rvv_lane alpha p.1 p.2)
        ++ rvv_loop alpha vlmax fuel (a.drop vl) (b.drop vl)

/-- C lines 33-53: the vector kernel.  `hasV` models the preprocessor
capability test at line 36 (`__riscv` and `__riscv_vector` defined and a
v1.0 intrinsic set); without the capability the function delegates to
`q15_axpy_ref` (line 38), otherwise it runs the strip-mined RVV loop. -/
def q15_axpy_rvv (hasV : Bool) (vlmax : Nat) (a b : List Int) (alpha : Int) :
    List Int :=
  if hasV then rvv_loop alpha vlmax a.length a b
  else q15_axpy_ref a b alpha

/-- Loop body of `verify_equal` (C lines 59-64): widen, subtract, take the
absolute value, fold the running maximum and the equality flag. -/
def verify_step (s : Bool × Int) (p : Int × Int) : Bool × Int :=
  let d0 := p.1 - p.2
  let d := if d0 < 0 then -d0 else d0
  let md := if d > s.2 then d else s.2
  let ok := if d ≠ 0 then false else s.1
  (ok, md)

/-- C lines 56-67, functional form for the equal-length calling contract:
fold the loop body over corresponding elements, starting from
`ok = 1, md = 0`. -/
def verify_equal (r t : List Int) : Bool × Int :=
  (r.zip t).foldl verify_step (true, 0)

/-- Loop of `verify_equal` with the C signature's explicit element count;
out-of-bounds reads are modelled as `none`, exactly as in `refN_loop`. -/
def verifyN_loop (r t : List Int) (i : Nat) : Nat → Bool × Int → Option (Bool × Int)
  | 0, s => some s
  | rem + 1, s => do
      let ri ← r[i]?
      let ti ← t[i]?
      verifyN_loop r t (i + 1) rem (verify_step s (ri, ti))

/-- C lines 56-67 with the explicit element count `n` of the C signature. -/
def verify_equalN (r t : List Int) (n : Nat) : Option (Bool × Int) :=
  verifyN_loop r t 0 n (true, 0)

/-- Memory state visible to a kernel invocation: the two input buffers and
the output buffer. -/
structure AxpyState where
  a : List Int
  b : List Int
  y : List Int

/-- One iteration of the scalar loop (C lines 21-24) as a state transformer:
read `a[i]` and `b[i]`, write `y[i]`.  In-bounds reads are the calling
contract; the `getD` default is never used on a valid invocation. -/
def ref_st_step (alpha : Int) (s : AxpyState) (i : Nat) : AxpyState :=
  AxpyState.mk s.a s.b
    (s.y.set i (q15_axpy_lane alpha (s.a.getD i 0) (s.b.getD i 0)))

/-- C lines 18-25 as a state transformer over the three buffers. -/
def q15_axpy_ref_st (alpha : Int) (n : Nat) (s : AxpyState) : AxpyState :=
  (List.range n).foldl (ref_st_step alpha) s

/-- One group of the RVV loop as a state transformer: store the `vl`
narrowed lanes starting at offset `i` (C line 49). -/
def rvv_st_chunk (alpha : Int) (i vl : Nat) (s : AxpyState) : AxpyState :=
  (List.range vl).foldl
    (fun t j => AxpyState.mk t.a t.b
      (t.y.set (i + j) (rvv_lane alpha (t.a.getD (i + j) 0) (t.b.getD (i + j) 0))))
    s

/-- Strip-mined RVV loop (C lines 40-50) as a state transformer, cursor `i`
advancing by the group width each iteration. -/
def rvv_loop_st (alpha : Int) (vlmax n : Nat) : Nat → Nat → AxpyState → AxpyState
  | 0, _, s => s
  | fuel + 1, i, s =>
    if i < n then
      if vlmax = 0 then s
      else
        let vl := min (n - i) vlmax
        rvv_loop_st alpha vlmax n fuel (i + vl) (rvv_st_chunk alpha i vl s)
    else s

/-- C lines 33-53 as a state transformer: delegate to the scalar kernel
without the vector capability, else run the strip-mined store loop. -/
def q15_axpy_rvv_st (hasV : Bool) (vlmax : Nat) (alpha : Int) (n : Nat)
    (s : AxpyState) : AxpyState :=
  if hasV then rvv_loop_st alpha vlmax n n 0 s
  else q15_axpy_ref_st alpha n s

end Q15

namespace Q15

/-! ## Helper lemmas -/

lemma sat_q15_of_isInt16 {v : Int} (h : isInt16 v) : sat_q15_scalar v = v := by
  obtain ⟨h1, h2⟩ := h
  unfold sat_q15_scalar
  split_ifs <;> omega

lemma axpy_ref_alpha_zero (a : List Int) : ∀ b : List Int, a.length = b.length →
    (∀ x ∈ a, isInt16 x) → q15_axpy_ref a b 0 = a := by
  induction a with
  | nil => intro b h _; simp [q15_axpy_ref]
  | cons x a ih =>
      intro b h hx
      cases b with
      | nil => simp at h
      | cons y b =>
          have h1 : sat_q15_scalar x = x :=
            sat_q15_of_isInt16 (hx x (List.mem_cons_self x a))
          have h2 := ih b (by simpa using h)
            (fun z hz => hx z (List.mem_cons_of_mem x hz))
          simp only [q15_axpy_ref, q15_axpy_lane, q15_acc] at h2 ⊢
          simp only [List.zip_cons_cons, List.map_cons, zero_mul, add_zero]
          rw [h1]
          simpa [zero_mul, add_zero] using h2

end Q15

namespace Q15

/-! ## Claim theorems: scalar kernel arithmetic -/

/-- Claim C2: for every in-range index `i`, the scalar kernel `q15_axpy_ref` stores
`y[i] = sat_q15_scalar(widen(a[i]) + widen(alpha) * widen(b[i]))`, where the
accumulator is 32-bit signed arithmetic (`q15_acc`, shown overflow-free in
`q15_acc_no_overflow`) and `sat_q15_scalar` clamps to 32767 above, to -32768
below, and otherwise returns the value unchanged. -/
theorem q15_axpy_ref_elem (a b : List Int) (alpha : Int) (i : Nat)
    (ha : i < a.length) (hb : i < b.length) :
    (q15_axpy_ref a b alpha)[i]? = some (sat_q15_scalar (a[i] + alpha * b[i])) ∧
    (∀ v : Int, 32767 < v → sat_q15_scalar v = 32767) ∧
    (∀ v : Int, v < -32768 → sat_q15_scalar v = -32768) ∧
    (∀ v : Int, -32768 ≤ v → v ≤ 32767 → sat_q15_scalar v = v) := by
  refine ⟨?_, ?_, ?_, ?_⟩
  · have hz : i < (a.zip b).length := by
      rw [List.length_zip]
      omega
    simp only [q15_axpy_ref, q15_axpy_lane, q15_acc, List.getElem?_map]
    rw [List.getElem?_eq_getElem hz]
    simp [List.getElem_zip]
  · intro v hv
    unfold sat_q15_scalar
    split_ifs <;> omega
  · intro v hv
    unfold sat_q15_scalar
    split_ifs <;> omega
  · intro v hv1 hv2
    unfold sat_q15_scalar
    split_ifs <;> omega

/-- Witness for C2 at `a = [5]`, `b = [7]`, `alpha = 3`, `i = 0`. -/
theorem q15_axpy_ref_elem_witness :
    (q15_axpy_ref [5] [7] 3)[0]? = some (sat_q15_scalar (5 + 3 * 7)) := by
  have h := (q15_axpy_ref_elem [5] [7] 3 0 (by decide) (by decide)).1
  simpa using h

/-- Claim C3: on the full signed 16-bit input domain the widened accumulator
`q15_acc alpha ai bi = ai + alpha * bi` is representable in a signed 32-bit
integer, so the C `int32_t` arithmetic never wraps before saturation; in
particular the extremal case `alpha = -32768`, `bi = -32768` (product
`2 ^ 30`) plus `ai = 32767` stays inside `int32`. -/
theorem q15_acc_no_overflow (ai bi alpha : Int)
    (ha : isInt16 ai) (hb : isInt16 bi) (hc : isInt16 alpha) :
    isInt32 (q15_acc alpha ai bi) ∧
    q15_acc (-32768) 32767 (-32768) = 32767 + 2 ^ 30 ∧
    isInt32 (q15_acc (-32768) 32767 (-32768)) := by
  obtain ⟨ha1, ha2⟩ := ha
  obtain ⟨hb1, hb2⟩ := hb
  obtain ⟨hc1, hc2⟩ := hc
  have h1 : (0 : Int) ≤ (alpha + 32768) * (bi + 32768) :=
    mul_nonneg (by omega) (by omega)
  have h2 : (0 : Int) ≤ (alpha + 32768) * (32767 - bi) :=
    mul_nonneg (by omega) (by omega)
  have h3 : (0 : Int) ≤ (32767 - alpha) * (bi + 32768) :=
    mul_nonneg (by omega) (by omega)
  have h4 : (0 : Int) ≤ (32767 - alpha) * (32767 - bi) :=
    mul_nonneg (by omega) (by omega)
  refine ⟨⟨?_, ?_⟩, by decide, by decide⟩
  · unfold q15_acc
    nlinarith [h1, h2, h3, h4]
  · unfold q15_acc
    nlinarith [h1, h2, h3, h4]

/-- Witness for C3 at the extremal point `ai = 32767`, `bi = alpha = -32768`. -/
theorem q15_acc_no_overflow_witness :
    isInt16 32767 ∧ isInt16 (-32768) ∧ isInt32 (q15_acc (-32768) 32767 (-32768)) :=
  ⟨by decide, by decide,
    (q15_acc_no_overflow 32767 (-32768) (-32768)
      (by decide) (by decide) (by decide)).1⟩

/-- Claim C4: at the positive extreme `a = [32767]`, `b = [32767]`,
`alpha = 32767` the scalar kernel clamps to the upper boundary 32767, and at
the negative extreme `a = [-32768]`, `b = [-32768]`, `alpha = 32767` it
clamps to the lower boundary -32768; neither case wraps. -/
theorem q15_axpy_ref_saturation_boundary :
    q15_axpy_ref [32767] [32767] 32767 = [32767] ∧
    q15_axpy_ref [-32768] [-32768] 32767 = [-32768] := by decide

end Q15

namespace Q15

/-! ## Claim theorems: algebraic identities and edge cases -/

/-- Claim C6: for any buffer `a` of in-range values, the scalar kernel applied to
`a`, an all-zero buffer of the same length, and `alpha = 0` returns `a`
unchanged. -/
theorem axpy_zero_buffer_identity (a : List Int) (ha : ∀ x ∈ a, isInt16 x) :
    q15_axpy_ref a (List.replicate a.length 0) 0 = a :=
  axpy_ref_alpha_zero a (List.replicate a.length 0) (by simp) ha

/-- Witness for C6 at `a = [5, -7]`. -/
theorem axpy_zero_buffer_identity_witness :
    (∀ x ∈ ([5, -7] : List Int), isInt16 x) ∧
    q15_axpy_ref [5, -7] (List.replicate 2 0) 0 = [5, -7] :=
  ⟨by decide, axpy_zero_buffer_identity [5, -7] (by decide)⟩

/-- Claim C10: for any equal-length buffers, `alpha = 0` makes the value of `b`
irrelevant: the widened product `0 * b[i]` vanishes, so the scalar kernel
returns the in-range buffer `a` unchanged whatever `b` contains. -/
theorem axpy_alpha_zero_any_b (a b : List Int) (hlen : a.length = b.length)
    (ha : ∀ x ∈ a, isInt16 x) : q15_axpy_ref a b 0 = a :=
  axpy_ref_alpha_zero a b hlen ha

/-- Witness for C10 at `a = [5, -7]`, `b = [123, -999]`. -/
theorem axpy_alpha_zero_any_b_witness :
    ([5, -7] : List Int).length = ([123, -999] : List Int).length ∧
    (∀ x ∈ ([5, -7] : List Int), isInt16 x) ∧
    q15_axpy_ref [5, -7] [123, -999] 0 = [5, -7] :=
  ⟨rfl, by decide, axpy_alpha_zero_any_b [5, -7] [123, -999] rfl (by decide)⟩

/-- Claim C7: both kernels accept length-0 buffers and return the empty output,
and the verifier accepts length-0 buffers and returns `(true, 0)`; the
explicit-count forms likewise succeed at `n = 0` with no error. -/
theorem zero_length_accepted :
    (∀ alpha : Int, q15_axpy_ref [] [] alpha = []) ∧
    (∀ (hasV : Bool) (vlmax : Nat) (alpha : Int),
      q15_axpy_rvv hasV vlmax [] [] alpha = []) ∧
    verify_equal [] [] = (true, 0) ∧
    (∀ alpha : Int, q15_axpy_refN [] [] 0 alpha = some []) ∧
    verify_equalN [] [] 0 = some (true, 0) := by
  refine ⟨fun _ => rfl, fun hasV vlmax alpha => ?_, rfl, fun _ => rfl, rfl⟩
  cases hasV <;> rfl

/-! ## Claim theorems: the vector kernel -/

/-- Claim C1 (divergence of the vector path, C line 48): on a vector-capable build
the RVV path narrows with `vnclip_wx(vacc, 15, vl)`, i.e. it shifts the
accumulator right by 15 before saturating, so at `a = [100]`, `b = [0]`,
`alpha = 0` it returns `[0]` while the scalar kernel returns `[100]`
(`(100 + 2 ^ 14) >> 15 = 0` under every `vxrm` rounding mode, so the
divergence is independent of the rounding mode).  The delegation half of the
claim does hold: without the vector capability `q15_axpy_rvv` is exactly
`q15_axpy_ref` (C lines 36-38). -/
theorem rvv_path_diverges_from_ref :
    q15_axpy_rvv true 4 [100] [0] 0 = [0] ∧
    q15_axpy_ref [100] [0] 0 = [100] ∧
    (∀ (vlmax : Nat) (a b : List Int) (alpha : Int),
      q15_axpy_rvv false vlmax a b alpha = q15_axpy_ref a b alpha) :=
  ⟨by decide, by decide, fun _ _ _ _ => rfl⟩

end Q15

namespace Q15

/-! ## Claim theorems: error handling of the explicit-count interface -/

lemma refN_loop_isSome_of_le (a b : List Int) (alpha : Int) :
    ∀ (rem i : Nat), i + rem ≤ a.length → i + rem ≤ b.length →
      (refN_loop a b alpha i rem).isSome = true := by
  intro rem
  induction rem with
  | zero => intro i _ _; rfl
  | succ rem ih =>
      intro i ha hb
      have hia : i < a.length := by omega
      have hib : i < b.length := by omega
      have h1 := ih (i + 1) (by omega) (by omega)
      simp only [refN_loop]
      rw [List.getElem?_eq_getElem hia, List.getElem?_eq_getElem hib]
      rcases hr : refN_loop a b alpha (i + 1) rem with _ | rest
      · rw [hr] at h1
        simp at h1
      · simp [Option.bind, hr]

lemma verifyN_loop_isSome_of_le (r t : List Int) :
    ∀ (rem i : Nat) (s : Bool × Int), i + rem ≤ r.length → i + rem ≤ t.length →
      (verifyN_loop r t i rem s).isSome = true := by
  intro rem
  induction rem with
  | zero => intro i s _ _; rfl
  | succ rem ih =>
      intro i s hr ht
      have hir : i < r.length := by omega
      have hit : i < t.length := by omega
      simp only [verifyN_loop]
      rw [List.getElem?_eq_getElem hir, List.getElem?_eq_getElem hit]
      simpa [Option.bind] using ih (i + 1) _ (by omega) (by omega)

/-- Claim C8 (counterexample): the C code performs no length validation and
defines no error kind.  Called with the shared count `n = 1` on buffers of
unequal lengths 2 and 1, both the scalar kernel and the verifier succeed
normally instead of raising an InvalidInput error. -/
theorem no_length_check_cex :
    ([0, 0] : List Int).length ≠ ([0] : List Int).length ∧
    q15_axpy_refN [0, 0] [0] 1 0 = some [0] ∧
    verify_equalN [0, 0] [0] 1 = some (true, 0) := by decide

/-- Claim C8 (amended): the kernels and the verifier of the C code take a single
shared element count `n` and perform no validation and raise no error:
whenever both buffers hold at least `n` elements the call succeeds, whether
or not the buffers' total lengths are equal.  (An `n` exceeding a buffer's
length is an out-of-bounds access, undefined behavior rather than a reported
error.) -/
theorem refN_verifyN_no_validation (a b : List Int) (n : Nat) (alpha : Int)
    (ha : n ≤ a.length) (hb : n ≤ b.length) :
    (q15_axpy_refN a b n alpha).isSome = true ∧
    (verify_equalN a b n).isSome = true :=
  ⟨refN_loop_isSome_of_le a b alpha n 0 (by omega) (by omega),
    verifyN_loop_isSome_of_le a b n 0 (true, 0) (by omega) (by omega)⟩

/-- Witness for the amended C8 at the unequal-length input `a = [0, 0]`,
`b = [0]`, `n = 1`. -/
theorem refN_verifyN_no_validation_witness :
    1 ≤ ([0, 0] : List Int).length ∧ 1 ≤ ([0] : List Int).length ∧
    (q15_axpy_refN [0, 0] [0] 1 0).isSome = true ∧
    (verify_equalN [0, 0] [0] 1).isSome = true :=
  ⟨by decide, by decide,
    (refN_verifyN_no_validation [0, 0] [0] 1 0 (by decide) (by decide)).1,
    (refN_verifyN_no_validation [0, 0] [0] 1 0 (by decide) (by decide)).2⟩

end Q15

namespace Q15

/-! ## Claim theorems: the verifier -/

lemma verify_step_eq (s : Bool × Int) (p : Int × Int) :
    verify_step s p = (s.1 && (p.1 - p.2 == 0), max s.2 |p.1 - p.2|) := by
  obtain ⟨ok, md⟩ := s
  unfold verify_step
  have habs : (if p.1 - p.2 < 0 then -(p.1 - p.2) else p.1 - p.2) = |p.1 - p.2| := by
    rcases lt_or_ge (p.1 - p.2) 0 with h | h
    · rw [if_pos h, abs_of_neg h]
    · rw [if_neg (not_lt.mpr h), abs_of_nonneg h]
  simp only [habs]
  have hmax : (if |p.1 - p.2| > md then |p.1 - p.2| else md) = max md |p.1 - p.2| := by
    rcases le_or_lt |p.1 - p.2| md with h | h
    · rw [if_neg (not_lt.mpr h), max_eq_left h]
    · rw [if_pos h, max_eq_right (le_of_lt h)]
  have hok : (if |p.1 - p.2| ≠ 0 then false else ok) = (ok && (p.1 - p.2 == 0)) := by
    rcases eq_or_ne (p.1 - p.2) 0 with h | h
    · simp [h]
    · simp [h, abs_eq_zero]
  rw [hmax, hok]

lemma verify_foldl (l : List (Int × Int)) :
    ∀ (ok : Bool) (md : Int), l.foldl verify_step (ok, md) =
      (ok && l.all (fun p => p.1 == p.2),
        (l.map (fun p => |p.1 - p.2|)).foldl max md) := by
  induction l with
  | nil => intro ok md; simp
  | cons p l ih =>
      intro ok md
      rw [List.foldl_cons, verify_step_eq, ih]
      have hbeq : (p.1 - p.2 == 0) = (p.1 == p.2) := by
        rcases eq_or_ne p.1 p.2 with h | h
        · simp [h]
        · simp [h, sub_eq_zero]
      rw [hbeq]
      simp [Bool.and_assoc]

lemma verify_equal_eq (r t : List Int) :
    verify_equal r t = ((r.zip t).all fun p => p.1 == p.2,
      ((r.zip t).map fun p => |p.1 - p.2|).foldl max 0) := by
  unfold verify_equal
  rw [verify_foldl]
  simp

lemma foldr_max_max (a m : Int) : ∀ l : List Int,
    l.foldr max (max m a) = max a (l.foldr max m)
  | [] => max_comm m a
  | x :: l => by
      rw [List.foldr_cons, List.foldr_cons, foldr_max_max a m l, max_left_comm]

lemma foldl_max_eq_foldr_max (l : List Int) : ∀ m : Int,
    l.foldl max m = l.foldr max m := by
  induction l with
  | nil => intro m; rfl
  | cons x l ih =>
      intro m
      rw [List.foldl_cons, ih, foldr_max_max, List.foldr_cons]

lemma all_zip_iff (r : List Int) : ∀ t : List Int, r.length = t.length →
    ((((r.zip t).all fun p => p.1 == p.2) = true) ↔
      ∀ i, i < r.length → r.getD i 0 = t.getD i 0) := by
  induction r with
  | nil =>
      intro t h
      simp
  | cons x r ih =>
      intro t h
      cases t with
      | nil => simp at h
      | cons y t =>
          have h2 : r.length = t.length := by simpa using h
          simp only [List.zip_cons_cons, List.all_cons, Bool.and_eq_true,
            beq_iff_eq, ih t h2]
          constructor
          · rintro ⟨hxy, hall⟩ i hi
            cases i with
            | zero => simpa using hxy
            | succ j =>
                have hj : j < r.length := by
                  simp only [List.length_cons] at hi
                  omega
                simpa using hall j hj
          · intro hall
            refine ⟨by simpa using hall 0 (by simp), fun j hj => ?_⟩
            have hj1 : j + 1 < (x :: r).length := by
              simp only [List.length_cons]
              omega
            simpa using hall (j + 1) hj1

lemma verify_equal_self (x : List Int) : verify_equal x x = (true, 0) := by
  induction x with
  | nil => rfl
  | cons v x ih =>
      unfold verify_equal at ih ⊢
      rw [List.zip_cons_cons, List.foldl_cons, verify_step_eq]
      simpa using ih

/-- Claim C5: for equal-length buffers the verifier's flag is true exactly when
every elementwise difference is zero, and its reported maximum is the
maximum of the widened absolute differences (zero on empty input by the
initial accumulator); concretely `verify_equal x x = (true, 0)` for every
`x`, and `verify_equal [0] [-32768] = (false, 32768)`. -/
theorem verify_equal_correct :
    (∀ r t : List Int, r.length = t.length →
      (((verify_equal r t).1 = true) ↔
        ∀ i, i < r.length → r.getD i 0 = t.getD i 0)) ∧
    (∀ r t : List Int,
      (verify_equal r t).2 = ((r.zip t).map fun p => |p.1 - p.2|).foldr max 0) ∧
    (∀ x : List Int, verify_equal x x = (true, 0)) ∧
    verify_equal [0] [-32768] = (false, 32768) := by
  refine ⟨?_, ?_, verify_equal_self, by decide⟩
  · intro r t h
    rw [verify_equal_eq]
    exact all_zip_iff r t h
  · intro r t
    rw [verify_equal_eq]
    exact foldl_max_eq_foldr_max _ 0

/-- Witness for C5 at the equal-length pair `[7, -2]`, `[7, -2]`: the flag
characterization, with its length hypothesis discharged, evaluated at a
concrete input. -/
theorem verify_equal_correct_witness :
    (verify_equal [7, -2] [7, -2]).1 = true := by
  have h := verify_equal_correct.1 [7, -2] [7, -2] rfl
  exact h.mpr (by decide)

end Q15

namespace Q15

/-! ## Claim theorems: frame conditions of the stateful loops -/

lemma foldl_ab_invariant (f : AxpyState → Nat → AxpyState)
    (hf : ∀ s i, (f s i).a = s.a ∧ (f s i).b = s.b ∧
      (f s i).y.length = s.y.length) :
    ∀ (l : List Nat) (s : AxpyState),
      ((l.foldl f s).a = s.a ∧ (l.foldl f s).b = s.b ∧
        (l.foldl f s).y.length = s.y.length) := by
  intro l
  induction l with
  | nil => intro s; exact ⟨rfl, rfl, rfl⟩
  | cons i l ih =>
      intro s
      have h1 := hf s i
      have h2 := ih (f s i)
      rw [List.foldl_cons]
      exact ⟨h2.1.trans h1.1, h2.2.1.trans h1.2.1, h2.2.2.trans h1.2.2⟩

lemma ref_st_step_frame (alpha : Int) (s : AxpyState) (i : Nat) :
    (ref_st_step alpha s i).a = s.a ∧ (ref_st_step alpha s i).b = s.b ∧
      (ref_st_step alpha s i).y.length = s.y.length :=
  ⟨rfl, rfl, List.length_set s.y i _⟩

lemma rvv_st_chunk_frame (alpha : Int) (i vl : Nat) (s : AxpyState) :
    (rvv_st_chunk alpha i vl s).a = s.a ∧ (rvv_st_chunk alpha i vl s).b = s.b ∧
      (rvv_st_chunk alpha i vl s).y.length = s.y.length :=
  foldl_ab_invariant
    (fun t j => AxpyState.mk t.a t.b
      (t.y.set (i + j) (rvv_lane alpha (t.a.getD (i + j) 0) (t.b.getD (i + j) 0))))
    (fun t j => ⟨rfl, rfl, List.length_set t.y (i + j) _⟩)
    (List.range vl) s

lemma rvv_loop_st_frame (alpha : Int) (vlmax n : Nat) :
    ∀ (fuel i : Nat) (s : AxpyState),
      ((rvv_loop_st alpha vlmax n fuel i s).a = s.a ∧
        (rvv_loop_st alpha vlmax n fuel i s).b = s.b ∧
        (rvv_loop_st alpha vlmax n fuel i s).y.length = s.y.length) := by
  intro fuel
  induction fuel with
  | zero => intro i s; exact ⟨rfl, rfl, rfl⟩
  | succ fuel ih =>
      intro i s
      unfold rvv_loop_st
      split_ifs
      · exact ⟨rfl, rfl, rfl⟩
      · have hc := rvv_st_chunk_frame alpha i (min (n - i) vlmax) s
        have hr := ih (i + min (n - i) vlmax)
          (rvv_st_chunk alpha i (min (n - i) vlmax) s)
        exact ⟨hr.1.trans hc.1, hr.2.1.trans hc.2.1, hr.2.2.trans hc.2.2⟩
      · exact ⟨rfl, rfl, rfl⟩

/-- Claim C9: both kernels, modelled as transformers of the memory state holding
the three buffers, leave the input buffers `a` and `b` unchanged and touch
only the pre-allocated output buffer `y` (whose length they also do not
change: every effect is an in-place `y`-write). -/
theorem kernels_no_side_effects (hasV : Bool) (vlmax : Nat) (alpha : Int)
    (n : Nat) (s : AxpyState) :
    (q15_axpy_ref_st alpha n s).a = s.a ∧ (q15_axpy_ref_st alpha n s).b = s.b ∧
    (q15_axpy_ref_st alpha n s).y.length = s.y.length ∧
    (q15_axpy_rvv_st hasV vlmax alpha n s).a = s.a ∧
    (q15_axpy_rvv_st hasV vlmax alpha n s).b = s.b ∧
    (q15_axpy_rvv_st hasV vlmax alpha n s).y.length = s.y.length := by
  have href := foldl_ab_invariant (ref_st_step alpha) (ref_st_step_frame alpha)
    (List.range n) s
  have hrvv : (q15_axpy_rvv_st hasV vlmax alpha n s).a = s.a ∧
      (q15_axpy_rvv_st hasV vlmax alpha n s).b = s.b ∧
      (q15_axpy_rvv_st hasV vlmax alpha n s).y.length = s.y.length := by
    unfold q15_axpy_rvv_st
    cases hasV with
    | false =>
        simpa [q15_axpy_ref_st] using href
    | true =>
        simpa using rvv_loop_st_frame alpha vlmax n n 0 s
  exact ⟨href.1, href.2.1, href.2.2, hrvv.1, hrvv.2.1, hrvv.2.2⟩

end Q15

namespace Q15

/-! ## Consistency of the three embeddings of each kernel

The strip-mined vector loop, the explicit-count loop and the zipped
functional form are different renderings of the same C loops; the lemmas
below show they agree, so no claim depends on an artifact of one
rendering. -/

lemma zip_take_append_zip_drop :
    ∀ (n : Nat) (a b : List Int),
      (a.take n).zip (b.take n) ++ (a.drop n).zip (b.drop n) = a.zip b := by
  intro n
  induction n with
  | zero => intro a b; simp
  | succ n ih =>
      intro a b
      cases a with
      | nil => simp
      | cons x a =>
          cases b with
          | nil => simp
          | cons y b =>
              simp only [List.take_succ_cons, List.drop_succ_cons,
                List.zip_cons_cons, List.cons_append]
              rw [ih]

lemma rvv_loop_eq_map (alpha : Int) (vlmax : Nat) (hv : vlmax ≠ 0) :
    ∀ (fuel : Nat) (a b : List Int), a.length ≤ fuel →
      rvv_loop alpha vlmax fuel a b =
        (a.zip b).map fun p => rvv_lane alpha p.1 p.2 := by
  intro fuel
  induction fuel with
  | zero =>
      intro a b ha
      have : a = [] := List.eq_nil_of_length_eq_zero (by omega)
      subst this
      simp [rvv_loop]
  | succ fuel ih =>
      intro a b ha
      cases a with
      | nil => simp [rvv_loop]
      | cons x a0 =>
          simp only [rvv_loop, List.isEmpty_cons, if_neg hv]
          have hvl : 1 ≤ min (x :: a0).length vlmax := by
            simp only [List.length_cons]
            omega
          have hdrop : ((x :: a0).drop (min (x :: a0).length vlmax)).length ≤ fuel := by
            simp only [List.length_drop, List.length_cons] at *
            omega
          rw [ih _ _ hdrop, ← List.map_append, zip_take_append_zip_drop]
          simp

lemma q15_axpy_rvv_true_eq_map (vlmax : Nat) (hv : vlmax ≠ 0)
    (a b : List Int) (alpha : Int) :
    q15_axpy_rvv true vlmax a b alpha =
      (a.zip b).map fun p => rvv_lane alpha p.1 p.2 := by
  unfold q15_axpy_rvv
  rw [if_pos rfl]
  exact rvv_loop_eq_map alpha vlmax hv a.length a b le_rfl

lemma refN_loop_eq_zip (a b : List Int) (alpha : Int) :
    ∀ (rem i : Nat), i + rem ≤ a.length → i + rem ≤ b.length →
      refN_loop a b alpha i rem =
        some ((((a.drop i).take rem).zip ((b.drop i).take rem)).map
          fun p => q15_axpy_lane alpha p.1 p.2) := by
  intro rem
  induction rem with
  | zero => intro i _ _; simp [refN_loop]
  | succ rem ih =>
      intro i ha hb
      have hia : i < a.length := by omega
      have hib : i < b.length := by omega
      have hda : a.drop i = a[i] :: a.drop (i + 1) := List.drop_eq_getElem_cons hia
      have hdb : b.drop i = b[i] :: b.drop (i + 1) := List.drop_eq_getElem_cons hib
      simp only [refN_loop]
      rw [List.getElem?_eq_getElem hia, List.getElem?_eq_getElem hib,
        ih (i + 1) (by omega) (by omega), hda, hdb]
      simp only [List.take_succ_cons, List.zip_cons_cons, List.map_cons]
      rfl

lemma refN_eq_ref (a b : List Int) (alpha : Int) (h : a.length = b.length) :
    q15_axpy_refN a b a.length alpha = some (q15_axpy_ref a b alpha) := by
  unfold q15_axpy_refN q15_axpy_ref
  rw [refN_loop_eq_zip a b alpha a.length 0 (by omega) (by omega)]
  have h2 : b.take a.length = b := by
    rw [h]
    exact List.take_length b
  rw [List.drop_zero, List.drop_zero, List.take_length a, h2]

end Q15

namespace Q15

lemma set_append_length (l1 l2 : List Int) (v : Int) :
    (l1 ++ l2).set l1.length v = l1 ++ l2.set 0 v := by
  induction l1 with
  | nil => rfl
  | cons x l1 ih => simp [ih]

lemma set_append_of_length (l1 l2 : List Int) (n : Nat) (v : Int)
    (h : n = l1.length) : (l1 ++ l2).set n v = l1 ++ l2.set 0 v := by
  subst h
  exact set_append_length l1 l2 v

lemma ref_st_y_take (alpha : Int) (a b y : List Int) (hab : a.length = b.length)
    (hy : y.length = a.length) :
    ∀ n, n ≤ a.length →
      (q15_axpy_ref_st alpha n (AxpyState.mk a b y)).y =
        (q15_axpy_ref a b alpha).take n ++ y.drop n := by
  have hRlen : (q15_axpy_ref a b alpha).length = a.length := by
    simp [q15_axpy_ref, List.length_zip, hab]
  intro n
  induction n with
  | zero => intro _; simp [q15_axpy_ref_st]
  | succ n ih =>
      intro hn
      have hn0 : n ≤ a.length := by omega
      have hlt : n < a.length := by omega
      have hltb : n < b.length := by omega
      have hlty : n < y.length := by omega
      have hltR : n < (q15_axpy_ref a b alpha).length := by omega
      have hfr := foldl_ab_invariant (ref_st_step alpha) (ref_st_step_frame alpha)
        (List.range n) (AxpyState.mk a b y)
      have hfa : (List.foldl (ref_st_step alpha) (AxpyState.mk a b y)
          (List.range n)).a = a := hfr.1
      have hfb : (List.foldl (ref_st_step alpha) (AxpyState.mk a b y)
          (List.range n)).b = b := hfr.2.1
      unfold q15_axpy_ref_st at ih ⊢
      rw [List.range_succ, List.foldl_append, List.foldl_cons, List.foldl_nil]
      simp only [ref_st_step]
      rw [ih hn0, hfa, hfb]
      rw [List.getD_eq_getElem a 0 hlt, List.getD_eq_getElem b 0 hltb]
      have hval : q15_axpy_lane alpha a[n] b[n] = (q15_axpy_ref a b alpha)[n] := by
        simp [q15_axpy_ref, List.getElem_zip]
      have hidx : n = ((q15_axpy_ref a b alpha).take n).length := by
        rw [List.length_take]
        omega
      rw [hval]
      rw [set_append_of_length _ _ _ _ hidx, List.drop_eq_getElem_cons hlty,
        List.set_cons_zero]
      have htake : (q15_axpy_ref a b alpha).take (n + 1) =
          (q15_axpy_ref a b alpha).take n ++ [(q15_axpy_ref a b alpha)[n]] := by
        rw [List.take_succ, List.getElem?_eq_getElem hltR]
        rfl
      rw [htake, List.append_assoc, List.singleton_append]

/-- The stateful rendering of the scalar kernel computes, in the output
buffer, exactly the functional rendering: the C9 frame model is the same
loop, not a separate toy. -/
lemma ref_st_eq_ref (alpha : Int) (a b y : List Int) (hab : a.length = b.length)
    (hy : y.length = a.length) :
    (q15_axpy_ref_st alpha a.length (AxpyState.mk a b y)).y =
      q15_axpy_ref a b alpha := by
  have hRlen : (q15_axpy_ref a b alpha).length = a.length := by
    simp [q15_axpy_ref, List.length_zip, hab]
  rw [ref_st_y_take alpha a b y hab hy a.length le_rfl]
  rw [← hRlen, List.take_length, hRlen, ← hy, List.drop_length]
  simp

end Q15
